import Mathlib

/-!
Verification of the DAO voting system: a checkpointed voting-token ledger
(VotingToken, modelled from the specification because the checkpoint code is
provided by an external library) and the DAOVoting proposal registry
(embedded from the Solidity source in the repository).

Sequence numbers (block numbers) and addresses are modelled as Nat, with
address 0 the null identity.  Machine integers are uint256/uint16 in the
source; all the quantities involved (balances, tallies, block numbers) are
used well below overflow, and Solidity 0.8 reverts rather than wraps, so Nat
is the faithful carrier.
-/

namespace VotingToken

/-- Modelled from the spec: a checkpoint series is an ordered sequence of
(sequence_number, cumulative_value) pairs, kept in strictly increasing
sequence order, appended at the end. -/
abbrev Ckpts := List (Nat × Nat)

/-- Modelled from the spec: a query for the value at sequence `s` returns the
value recorded at the latest checkpoint with sequence_number at most `s`, or
zero if none exists.  Folding left over the in-order list keeps the last
qualifying entry. -/
def lookupLE (l : Ckpts) (s : Nat) : Nat :=
  (l.foldl (fun acc kv => if kv.1 ≤ s then some kv.2 else acc) none).getD 0

/-- Modelled from the spec: the current (latest) value of a series, zero when
the series is empty. -/
def latestVal (l : Ckpts) : Nat :=
  ((l.getLast?).map Prod.snd).getD 0

/-- Modelled from the spec: writing a checkpoint at sequence `k` appends a new
entry, unless a checkpoint already exists for `k`, in which case it is
overwritten in place rather than duplicated. -/
def ckptPush (l : Ckpts) (k v : Nat) : Ckpts :=
  match l.getLast? with
  | some kv => if kv.1 = k then l.dropLast ++ [(k, v)] else l ++ [(k, v)]
  | none => [(k, v)]

/-- Pointwise update of a map modelled as a function. -/
def upd (m : Nat → Nat) (k v : Nat) : Nat → Nat :=
  fun x => if x = k then v else m x

/-- Modelled from the spec: the VotingToken state: account balance ledger,
delegation map (0 encodes no delegation), per-delegate checkpoint series, the
total-supply checkpoint series, and the current total supply. -/
structure TokenState where
  balances : Nat → Nat
  delegatee : Nat → Nat
  ckpts : Nat → Ckpts
  supplyCkpts : Ckpts
  totalSupply : Nat

/-- Ledger-level failures of the token. -/
inductive TokenError where
  | InvalidRecipient
  | InsufficientBalance
deriving Repr, DecidableEq

/-- Modelled from the spec: write a checkpoint for one account at the current
sequence number. -/
def writeAcctCkpt (st : TokenState) (a blk w : Nat) : TokenState :=
  { st with ckpts := fun x => if x = a then ckptPush (st.ckpts a) blk w else st.ckpts x }

/-- Modelled from the spec: move `amount` units of voting weight from delegate
`src` to delegate `dst` at sequence `blk`, appending/overwriting a checkpoint
for each end that is a real delegate (nonzero identity). -/
def moveVotingPower (st : TokenState) (src dst amount blk : Nat) : TokenState :=
  if src = dst then st
  else
    if src ≠ 0 then
      let st1 := writeAcctCkpt st src blk (latestVal (st.ckpts src) - amount)
      if dst ≠ 0 then writeAcctCkpt st1 dst blk (latestVal (st1.ckpts dst) + amount) else st1
    else
      if dst ≠ 0 then writeAcctCkpt st dst blk (latestVal (st.ckpts dst) + amount) else st

/-- Modelled from the spec: the shared balance-update path of transfer, mint
(src = 0) and burn (dst = 0): mutates balances, appends a total-supply
checkpoint on mint/burn, fails with InsufficientBalance when debiting more
than held, and moves the delegated voting weight between the delegates of the two sides at the current sequence number. -/
def tokenUpdate (st : TokenState) (src dst value blk : Nat) : Except TokenError TokenState :=
  if src = 0 then
    let st1 : TokenState :=
      { st with balances := upd st.balances dst (st.balances dst + value),
                totalSupply := st.totalSupply + value,
                supplyCkpts := ckptPush st.supplyCkpts blk (st.totalSupply + value) }
    Except.ok (moveVotingPower st1 (st1.delegatee 0) (st1.delegatee dst) value blk)
  else if st.balances src < value then Except.error TokenError.InsufficientBalance
  else if dst = 0 then
    let st1 : TokenState :=
      { st with balances := upd st.balances src (st.balances src - value),
                totalSupply := st.totalSupply - value,
                supplyCkpts := ckptPush st.supplyCkpts blk (st.totalSupply - value) }
    Except.ok (moveVotingPower st1 (st1.delegatee src) (st1.delegatee 0) value blk)
  else
    let b1 := upd st.balances src (st.balances src - value)
    let st1 : TokenState := { st with balances := upd b1 dst (b1 dst + value) }
    Except.ok (moveVotingPower st1 (st1.delegatee src) (st1.delegatee dst) value blk)

/-- Modelled from the spec: transfer fails with InvalidRecipient on a null
destination, otherwise runs the shared update path. -/
def transfer (st : TokenState) (src dst value blk : Nat) : Except TokenError TokenState :=
  if dst = 0 then Except.error TokenError.InvalidRecipient
  else tokenUpdate st src dst value blk

/-- Modelled from the spec: mint fails with InvalidRecipient on a null
destination, otherwise credits `dst` from the null identity. -/
def mint (st : TokenState) (dst value blk : Nat) : Except TokenError TokenState :=
  if dst = 0 then Except.error TokenError.InvalidRecipient
  else tokenUpdate st 0 dst value blk

/-- Modelled from the spec: burn debits `src` toward the null identity. -/
def burn (st : TokenState) (src value blk : Nat) : Except TokenError TokenState :=
  tokenUpdate st src 0 value blk

/-- Modelled from the spec: delegate moves the current balance contribution of the voter
from the weight of the old delegate to the weight of the new delegate,
writing checkpoints for both at the current sequence number. -/
def delegate (st : TokenState) (voter newDelegate blk : Nat) : TokenState :=
  let st1 : TokenState := { st with delegatee := upd st.delegatee voter newDelegate }
  moveVotingPower st1 (st.delegatee voter) newDelegate (st.balances voter) blk

/-- Modelled from the spec: historical voting-weight query; permitted only for
sequence numbers strictly less than the current one, otherwise the query is a
FutureSequenceQuery failure (none). -/
def getPastVotes (st : TokenState) (blk account timepoint : Nat) : Option Nat :=
  if timepoint < blk then some (lookupLE (st.ckpts account) timepoint) else none

/-- Modelled from the spec: historical total-supply query with the same
strict future-lookup bound. -/
def getPastTotalSupply (st : TokenState) (blk timepoint : Nat) : Option Nat :=
  if timepoint < blk then some (lookupLE st.supplyCkpts timepoint) else none

/-- A balance- or delegation-mutating token operation, to be applied at a
given sequence number. -/
inductive TokenOp where
  | transfer (src dst value : Nat)
  | mint (dst value : Nat)
  | burn (src value : Nat)
  | delegate (voter newDelegate : Nat)
deriving Repr, DecidableEq

/-- Apply one operation at sequence `blk`; a failing operation has no effect
(atomic rejection). -/
def applyTokenOp (st : TokenState) (op : TokenOp) (blk : Nat) : TokenState :=
  match op with
  | TokenOp.transfer s d v =>
    match transfer st s d v blk with
    | Except.ok st2 => st2
    | Except.error _ => st
  | TokenOp.mint d v =>
    match mint st d v blk with
    | Except.ok st2 => st2
    | Except.error _ => st
  | TokenOp.burn s v =>
    match burn st s v blk with
    | Except.ok st2 => st2
    | Except.error _ => st
  | TokenOp.delegate v d => delegate st v d blk

/-- Apply a list of (operation, sequence number) pairs in order. -/
def applyTokenOps (st : TokenState) (ops : List (TokenOp × Nat)) : TokenState :=
  ops.foldl (fun s p => applyTokenOp s p.1 p.2) st

end VotingToken

namespace DAOVoting

open VotingToken

/-- The proposal record of the DAOVoting contract (struct Proposal). -/
structure Proposal where
  id : Nat
  proposer : Nat
  description : String
  snapshotBlock : Nat
  startBlock : Nat
  endBlock : Nat
  forVotes : Nat
  againstVotes : Nat
  canceled : Bool
  executed : Bool
deriving Repr, DecidableEq

/-- The default value of the proposals mapping (all fields zero), whose id 0
is the does-not-exist sentinel. -/
def emptyProposal : Proposal :=
  { id := 0, proposer := 0, description := "", snapshotBlock := 0, startBlock := 0,
    endBlock := 0, forVotes := 0, againstVotes := 0, canceled := false, executed := false }

/-- enum ProposalState of the DAOVoting contract. -/
inductive ProposalState where
  | Active
  | Succeeded
  | Defeated
  | Canceled
  | Executed
  | Unknown
deriving Repr, DecidableEq

/-- Failure kinds of the governance registry (the require messages of the
source, plus the future-lookup failure propagated from the token). -/
inductive GovError where
  | ProposalNotFound
  | ProposalCanceled
  | AlreadyExecuted
  | AlreadyCanceled
  | VotingNotStarted
  | VotingClosed
  | VotingNotEnded
  | AlreadyVoted
  | NoVotingPower
  | ProposalNotSuccessful
  | Unauthorized
  | InvalidQuorum
  | ZeroVotingPeriod
  | FutureSequenceQuery
deriving Repr, DecidableEq

/-- Storage of the DAOVoting contract: owner, quorum numerator, voting period
in blocks, next proposal id, the proposals mapping and the hasVoted mapping. -/
structure DAOState where
  owner : Nat
  quorumNumerator : Nat
  votingPeriodBlocks : Nat
  nextProposalId : Nat
  proposals : Nat → Proposal
  hasVoted : Nat → Nat → Bool

/-- The constructor body of DAOVoting after its requires pass: stores the
parameters and starts proposal ids at 1. -/
def initDAO (owner quorum period : Nat) : DAOState :=
  { owner := owner, quorumNumerator := quorum, votingPeriodBlocks := period,
    nextProposalId := 1, proposals := fun _ => emptyProposal,
    hasVoted := fun _ _ => false }

/-- createProposal: snapshot = start = current block, end = start + voting
period, fresh tallies and flags, id assigned from the increasing counter. -/
def createProposal (st : DAOState) (caller : Nat) (description : String) (blk : Nat) :
    DAOState × Nat :=
  let pid := st.nextProposalId
  let p : Proposal :=
    { id := pid, proposer := caller, description := description, snapshotBlock := blk,
      startBlock := blk, endBlock := blk + st.votingPeriodBlocks, forVotes := 0,
      againstVotes := 0, canceled := false, executed := false }
  ({ st with nextProposalId := pid + 1,
             proposals := fun i => if i = pid then p else st.proposals i }, pid)

/-- The tally branch of vote: adds `weight` to forVotes when `support` holds,
otherwise to againstVotes. -/
def tallyUpdate (p : Proposal) (support : Bool) (weight : Nat) : Proposal :=
  if support then { p with forVotes := p.forVotes + weight }
  else { p with againstVotes := p.againstVotes + weight }

/-- vote(proposalId, support) embedded from the source: the requires in
source order, then the snapshot-weight lookup, then the receipt write and the
tally update.  A revert is an error value and leaves no residual effect. -/
def vote (tok : TokenState) (st : DAOState) (caller pid : Nat) (support : Bool)
    (blk : Nat) : Except GovError DAOState :=
  if (st.proposals pid).id = 0 then Except.error GovError.ProposalNotFound
  else if (st.proposals pid).canceled then Except.error GovError.ProposalCanceled
  else if blk < (st.proposals pid).startBlock then Except.error GovError.VotingNotStarted
  else if (st.proposals pid).endBlock < blk then Except.error GovError.VotingClosed
  else if st.hasVoted pid caller then Except.error GovError.AlreadyVoted
  else
    match getPastVotes tok blk caller (st.proposals pid).snapshotBlock with
    | none => Except.error GovError.FutureSequenceQuery
    | some weight =>
      if weight = 0 then Except.error GovError.NoVotingPower
      else
        Except.ok
          { st with
            hasVoted := fun i a => if i = pid ∧ a = caller then true else st.hasVoted i a,
            proposals := fun i =>
              if i = pid then tallyUpdate (st.proposals pid) support weight
              else st.proposals i }

/-- state(proposalId) embedded from the source: sentinel, flags, window, then
the quorum computation against the checkpointed total supply at snapshot. -/
def state (tok : TokenState) (st : DAOState) (pid blk : Nat) :
    Except GovError ProposalState :=
  if (st.proposals pid).id = 0 then Except.ok ProposalState.Unknown
  else if (st.proposals pid).canceled then Except.ok ProposalState.Canceled
  else if (st.proposals pid).executed then Except.ok ProposalState.Executed
  else if blk ≤ (st.proposals pid).endBlock then Except.ok ProposalState.Active
  else
    match getPastTotalSupply tok blk (st.proposals pid).snapshotBlock with
    | none => Except.error GovError.FutureSequenceQuery
    | some totalSupplyAtSnapshot =>
      let requiredQuorum := totalSupplyAtSnapshot * st.quorumNumerator / 100
      if requiredQuorum ≤ (st.proposals pid).forVotes ∧
          (st.proposals pid).againstVotes < (st.proposals pid).forVotes then
        Except.ok ProposalState.Succeeded
      else Except.ok ProposalState.Defeated

/-- executeProposal(proposalId) embedded from the source: flag and window
requires, then the computed state must be Succeeded, then executed := true. -/
def executeProposal (tok : TokenState) (st : DAOState) (pid blk : Nat) :
    Except GovError DAOState :=
  if (st.proposals pid).id = 0 then Except.error GovError.ProposalNotFound
  else if (st.proposals pid).canceled then Except.error GovError.ProposalCanceled
  else if (st.proposals pid).executed then Except.error GovError.AlreadyExecuted
  else if blk ≤ (st.proposals pid).endBlock then Except.error GovError.VotingNotEnded
  else
    match state tok st pid blk with
    | Except.error e => Except.error e
    | Except.ok s =>
      if s = ProposalState.Succeeded then
        Except.ok
          { st with proposals := fun i =>
              if i = pid then { st.proposals pid with executed := true }
              else st.proposals i }
      else Except.error GovError.ProposalNotSuccessful

/-- cancelProposal(proposalId) embedded from the source: owner-gated, flag
checks, then canceled := true. -/
def cancelProposal (st : DAOState) (caller pid : Nat) : Except GovError DAOState :=
  if caller ≠ st.owner then Except.error GovError.Unauthorized
  else if (st.proposals pid).id = 0 then Except.error GovError.ProposalNotFound
  else if (st.proposals pid).canceled then Except.error GovError.AlreadyCanceled
  else if (st.proposals pid).executed then Except.error GovError.AlreadyExecuted
  else
    Except.ok
      { st with proposals := fun i =>
          if i = pid then { st.proposals pid with canceled := true }
          else st.proposals i }

/-- setQuorumNumerator embedded from the source: owner-gated range check,
then the live parameter update. -/
def setQuorumNumerator (st : DAOState) (caller newNumerator : Nat) :
    Except GovError DAOState :=
  if caller ≠ st.owner then Except.error GovError.Unauthorized
  else if 0 < newNumerator ∧ newNumerator ≤ 100 then
    Except.ok { st with quorumNumerator := newNumerator }
  else Except.error GovError.InvalidQuorum

/-- setVotingPeriodBlocks embedded from the source: owner-gated positivity
check, then the parameter update (affects only future createProposal calls). -/
def setVotingPeriodBlocks (st : DAOState) (caller newPeriod : Nat) :
    Except GovError DAOState :=
  if caller ≠ st.owner then Except.error GovError.Unauthorized
  else if 0 < newPeriod then
    Except.ok { st with votingPeriodBlocks := newPeriod }
  else Except.error GovError.ZeroVotingPeriod

/-- The state classification in the words of the specification: Unknown if
absent, Canceled if canceled, Executed if executed, Active while the current
sequence number is at most the end bound, else Succeeded exactly when
forVotes reaches floor(totalSupplyAtSnapshot * quorum / 100) and strictly
exceeds againstVotes, else Defeated.  Used to compare the source state
function against the specified classification. -/
def stateSpec (totalSupplyAtSnapshot quorum : Nat) (p : Proposal) (blk : Nat) :
    ProposalState :=
  if p.id = 0 then ProposalState.Unknown
  else if p.canceled then ProposalState.Canceled
  else if p.executed then ProposalState.Executed
  else if blk ≤ p.endBlock then ProposalState.Active
  else if totalSupplyAtSnapshot * quorum / 100 ≤ p.forVotes ∧
      p.againstVotes < p.forVotes then ProposalState.Succeeded
  else ProposalState.Defeated

/-- A registry transaction: the externally callable mutations of DAOVoting.
Vote and execute read an arbitrary token state (the token evolves
independently of the registry). -/
inductive GovEvent where
  | create (caller : Nat) (description : String)
  | castVote (tok : TokenState) (caller pid : Nat) (support : Bool)
  | execute (tok : TokenState) (pid : Nat)
  | cancel (caller pid : Nat)
  | setQuorum (caller newNumerator : Nat)
  | setPeriod (caller newPeriod : Nat)

/-- Apply one registry transaction at block `blk`; a reverting transaction
leaves the state unchanged. -/
def applyEvent (st : DAOState) (e : GovEvent) (blk : Nat) : DAOState :=
  match e with
  | GovEvent.create c d => (createProposal st c d blk).1
  | GovEvent.castVote tok c pid s =>
    match vote tok st c pid s blk with
    | Except.ok st2 => st2
    | Except.error _ => st
  | GovEvent.execute tok pid =>
    match executeProposal tok st pid blk with
    | Except.ok st2 => st2
    | Except.error _ => st
  | GovEvent.cancel c pid =>
    match cancelProposal st c pid with
    | Except.ok st2 => st2
    | Except.error _ => st
  | GovEvent.setQuorum c q =>
    match setQuorumNumerator st c q with
    | Except.ok st2 => st2
    | Except.error _ => st
  | GovEvent.setPeriod c v =>
    match setVotingPeriodBlocks st c v with
    | Except.ok st2 => st2
    | Except.error _ => st

/-- The registry invariant at current block `blk`: the window of an executed proposal is already closed (executed is only ever set after the end bound), and
every slot at or above the id counter is still the sentinel record. -/
def Inv (st : DAOState) (blk : Nat) : Prop :=
  (∀ pid, (st.proposals pid).executed = true → (st.proposals pid).endBlock < blk) ∧
  (∀ pid, st.nextProposalId ≤ pid → st.proposals pid = emptyProposal)

/-- Execution traces of the registry: any interleaving of registry
transactions with a monotonically non-decreasing block clock. -/
inductive Steps : DAOState → Nat → DAOState → Nat → Prop where
  | refl (st : DAOState) (blk : Nat) : Steps st blk st blk
  | tick {st : DAOState} {blk : Nat} {st2 : DAOState} {blk2 blk3 : Nat} :
      Steps st blk st2 blk2 → blk2 ≤ blk3 → Steps st blk st2 blk3
  | step {st : DAOState} {blk : Nat} {st2 : DAOState} {blk2 : Nat} (e : GovEvent) :
      Steps st blk st2 blk2 → Steps st blk (applyEvent st2 e blk2) blk2

end DAOVoting

namespace Fixtures

open VotingToken DAOVoting

/-- A concrete token state: account 1 self-delegated with one checkpoint at
sequence 1, supply checkpointed at sequence 0. -/
def tokC1 : TokenState :=
  { balances := fun a => if a = 1 then 100 else 0,
    delegatee := fun a => if a = 1 then 1 else 0,
    ckpts := fun a => if a = 1 then [(1, 100)] else [],
    supplyCkpts := [(0, 100)],
    totalSupply := 100 }

/-- A concrete list of post-snapshot token operations, all strictly after
sequence 3. -/
def opsC2 : List (TokenOp × Nat) :=
  [(TokenOp.transfer 1 2 30, 5), (TokenOp.delegate 2 2, 6), (TokenOp.mint 3 7, 6)]

/-- A proposal with a tie tally whose window [0,5] is closed at block 10. -/
def pTie : Proposal :=
  { id := 1, proposer := 7, description := "a", snapshotBlock := 0, startBlock := 0,
    endBlock := 5, forVotes := 10, againstVotes := 10, canceled := false, executed := false }

/-- Registry holding only the tie proposal. -/
def daoTie : DAOState :=
  { owner := 0, quorumNumerator := 20, votingPeriodBlocks := 5, nextProposalId := 2,
    proposals := fun i => if i = 1 then pTie else emptyProposal,
    hasVoted := fun _ _ => false }

/-- A closed-window proposal meeting quorum with a strict majority. -/
def pWin : Proposal :=
  { id := 1, proposer := 7, description := "w", snapshotBlock := 0, startBlock := 0,
    endBlock := 5, forVotes := 50, againstVotes := 10, canceled := false, executed := false }

/-- Registry holding only the winning proposal. -/
def daoWin : DAOState :=
  { owner := 0, quorumNumerator := 20, votingPeriodBlocks := 5, nextProposalId := 2,
    proposals := fun i => if i = 1 then pWin else emptyProposal,
    hasVoted := fun _ _ => false }

/-- A canceled proposal. -/
def pCanc : Proposal :=
  { id := 1, proposer := 7, description := "c", snapshotBlock := 1, startBlock := 1,
    endBlock := 6, forVotes := 0, againstVotes := 0, canceled := true, executed := false }

/-- Registry holding only the canceled proposal. -/
def daoTerm : DAOState :=
  { owner := 0, quorumNumerator := 20, votingPeriodBlocks := 5, nextProposalId := 2,
    proposals := fun i => if i = 1 then pCanc else emptyProposal,
    hasVoted := fun _ _ => false }

/-- A live proposal whose snapshot equals its start block. -/
def pFresh : Proposal :=
  { id := 1, proposer := 7, description := "f", snapshotBlock := 3, startBlock := 3,
    endBlock := 8, forVotes := 0, againstVotes := 0, canceled := false, executed := false }

/-- Registry holding only the live proposal. -/
def daoFresh : DAOState :=
  { owner := 0, quorumNumerator := 20, votingPeriodBlocks := 5, nextProposalId := 2,
    proposals := fun i => if i = 1 then pFresh else emptyProposal,
    hasVoted := fun _ _ => false }

end Fixtures

namespace VotingToken

theorem foldl_ckptPush_of_lt (s k v : Nat) (h : s < k) (l : Ckpts) (acc : Option Nat) :
    (ckptPush l k v).foldl (fun acc2 kv => if kv.1 ≤ s then some kv.2 else acc2) acc =
    l.foldl (fun acc2 kv => if kv.1 ≤ s then some kv.2 else acc2) acc := by
  have hks : ¬ k ≤ s := Nat.not_le.mpr h
  unfold ckptPush
  split
  case h_1 kv0 heq =>
    by_cases hk : kv0.1 = k
    · rw [if_pos hk]
      have hl2 : l.dropLast ++ [kv0] = l := List.dropLast_append_getLast? kv0 heq
      conv_rhs => rw [← hl2]
      rw [List.foldl_append, List.foldl_append]
      simp [hks, hk]
    · rw [if_neg hk]
      rw [List.foldl_append]
      simp [hks]
  case h_2 heq =>
    have hnil : l = [] := List.getLast?_eq_none_iff.mp heq
    subst hnil
    simp [hks]

theorem lookupLE_ckptPush_of_lt (l : Ckpts) (k v s : Nat) (h : s < k) :
    lookupLE (ckptPush l k v) s = lookupLE l s := by
  unfold lookupLE
  rw [foldl_ckptPush_of_lt s k v h]

theorem lookupLE_writeAcctCkpt (st : TokenState) (a blk w x s : Nat) (h : s < blk) :
    lookupLE ((writeAcctCkpt st a blk w).ckpts x) s = lookupLE (st.ckpts x) s := by
  unfold writeAcctCkpt
  by_cases hx : x = a
  · subst hx
    simp [lookupLE_ckptPush_of_lt _ _ _ _ h]
  · simp [hx]

theorem writeAcctCkpt_supply (st : TokenState) (a blk w : Nat) :
    (writeAcctCkpt st a blk w).supplyCkpts = st.supplyCkpts := rfl

theorem lookupLE_moveVotingPower (st : TokenState) (src dst amount blk x s : Nat)
    (h : s < blk) :
    lookupLE ((moveVotingPower st src dst amount blk).ckpts x) s =
    lookupLE (st.ckpts x) s := by
  unfold moveVotingPower
  split_ifs <;>
    simp [lookupLE_writeAcctCkpt _ _ _ _ _ _ h]

theorem moveVotingPower_supply (st : TokenState) (src dst amount blk : Nat) :
    (moveVotingPower st src dst amount blk).supplyCkpts = st.supplyCkpts := by
  unfold moveVotingPower
  split_ifs <;> rfl

theorem tokenUpdate_lookup (st : TokenState) (src dst value blk : Nat) (st2 : TokenState)
    (hok : tokenUpdate st src dst value blk = Except.ok st2) (x s : Nat) (h : s < blk) :
    lookupLE (st2.ckpts x) s = lookupLE (st.ckpts x) s ∧
    lookupLE st2.supplyCkpts s = lookupLE st.supplyCkpts s := by
  unfold tokenUpdate at hok
  split_ifs at hok <;> simp only [Except.ok.injEq] at hok <;> subst hok <;>
    constructor <;>
      simp [lookupLE_moveVotingPower _ _ _ _ _ _ _ h, moveVotingPower_supply,
        lookupLE_ckptPush_of_lt _ _ _ _ h]

theorem applyTokenOp_lookup (st : TokenState) (op : TokenOp) (blk x s : Nat) (h : s < blk) :
    lookupLE ((applyTokenOp st op blk).ckpts x) s = lookupLE (st.ckpts x) s ∧
    lookupLE (applyTokenOp st op blk).supplyCkpts s = lookupLE st.supplyCkpts s := by
  cases op with
  | transfer a b v =>
    simp only [applyTokenOp]
    cases htr : transfer st a b v blk with
    | ok st2 =>
      unfold transfer at htr
      split_ifs at htr
      exact tokenUpdate_lookup st a b v blk st2 htr x s h
    | error e => exact ⟨rfl, rfl⟩
  | mint b v =>
    simp only [applyTokenOp]
    cases htr : mint st b v blk with
    | ok st2 =>
      unfold mint at htr
      split_ifs at htr
      exact tokenUpdate_lookup st 0 b v blk st2 htr x s h
    | error e => exact ⟨rfl, rfl⟩
  | burn a v =>
    simp only [applyTokenOp]
    cases htr : burn st a v blk with
    | ok st2 =>
      unfold burn at htr
      exact tokenUpdate_lookup st a 0 v blk st2 htr x s h
    | error e => exact ⟨rfl, rfl⟩
  | delegate a d =>
    simp only [applyTokenOp]
    unfold delegate
    constructor
    · simpa using lookupLE_moveVotingPower _ (st.delegatee a) d (st.balances a) blk x s h
    · simpa using congrArg (fun l => lookupLE l s)
        (moveVotingPower_supply _ (st.delegatee a) d (st.balances a) blk)

theorem applyTokenOps_lookup (ops : List (TokenOp × Nat)) (S : Nat)
    (h : ∀ p ∈ ops, S < p.2) : ∀ (st : TokenState) (x s : Nat), s ≤ S →
    lookupLE ((applyTokenOps st ops).ckpts x) s = lookupLE (st.ckpts x) s ∧
    lookupLE (applyTokenOps st ops).supplyCkpts s = lookupLE st.supplyCkpts s := by
  induction ops with
  | nil =>
    intro st x s _
    exact ⟨rfl, rfl⟩
  | cons p rest ih =>
    intro st x s hs
    have h1 : S < p.2 := h p (List.mem_cons_self p rest)
    have hrest : ∀ q ∈ rest, S < q.2 := fun q hq => h q (List.mem_cons_of_mem _ hq)
    have hop := applyTokenOp_lookup st p.1 p.2 x s (lt_of_le_of_lt hs h1)
    have htail := ih hrest (applyTokenOp st p.1 p.2) x s hs
    have hfold : applyTokenOps st (p :: rest) = applyTokenOps (applyTokenOp st p.1 p.2) rest := rfl
    rw [hfold]
    exact ⟨htail.1.trans hop.1, htail.2.trans hop.2⟩

/-- C2: for every proposal snapshot S, the values of all checkpoints with
sequence number at most S, and hence the result of getPastVotes(voter, S) and
of getPastTotalSupply(S), are unchanged by any sequence of transfer, mint,
burn or delegate operations executed at sequence numbers strictly after S. -/
theorem C2_snapshot_immutability (st : TokenState) (ops : List (TokenOp × Nat)) (S : Nat)
    (h : ∀ p ∈ ops, S < p.2) :
    (∀ acct s, s ≤ S →
      lookupLE ((applyTokenOps st ops).ckpts acct) s = lookupLE (st.ckpts acct) s) ∧
    (∀ acct blk, getPastVotes (applyTokenOps st ops) blk acct S = getPastVotes st blk acct S) ∧
    (∀ blk, getPastTotalSupply (applyTokenOps st ops) blk S = getPastTotalSupply st blk S) := by
  refine ⟨fun acct s hs => (applyTokenOps_lookup ops S h st acct s hs).1,
    fun acct blk => ?_, fun blk => ?_⟩
  · unfold getPastVotes
    by_cases hb : S < blk
    · simp [hb, (applyTokenOps_lookup ops S h st acct S le_rfl).1]
    · simp [hb]
  · unfold getPastTotalSupply
    by_cases hb : S < blk
    · simp [hb, (applyTokenOps_lookup ops S h st 0 S le_rfl).2]
    · simp [hb]

/-- Witness for C2: a concrete ledger, snapshot 3, and post-snapshot transfer,
delegation and mint operations at sequence numbers 5 and 6. -/
theorem C2_witness :
    (∀ p ∈ Fixtures.opsC2, 3 < p.2) ∧
    getPastVotes (applyTokenOps Fixtures.tokC1 Fixtures.opsC2) 7 1 3 =
      getPastVotes Fixtures.tokC1 7 1 3 :=
  ⟨by decide, (C2_snapshot_immutability Fixtures.tokC1 Fixtures.opsC2 3 (by decide)).2.1 1 7⟩

end VotingToken

namespace DAOVoting

open VotingToken

/-- The state vote leaves behind on success: the receipt set, and the queried
snapshot weight added to the supported tally. -/
def voteResult (tok : TokenState) (st : DAOState) (caller pid : Nat) (support : Bool) :
    DAOState :=
  let weight := lookupLE (tok.ckpts caller) (st.proposals pid).snapshotBlock
  { st with
    hasVoted := fun i a => if i = pid ∧ a = caller then true else st.hasVoted i a,
    proposals := fun i =>
      if i = pid then tallyUpdate (st.proposals pid) support weight
      else st.proposals i }

theorem vote_ok_inv {tok : TokenState} {st : DAOState} {caller pid : Nat} {support : Bool}
    {blk : Nat} {st2 : DAOState}
    (h : vote tok st caller pid support blk = Except.ok st2) :
    (st.proposals pid).id ≠ 0 ∧ (st.proposals pid).canceled = false ∧
    (st.proposals pid).startBlock ≤ blk ∧ blk ≤ (st.proposals pid).endBlock ∧
    st.hasVoted pid caller = false ∧ (st.proposals pid).snapshotBlock < blk ∧
    lookupLE (tok.ckpts caller) (st.proposals pid).snapshotBlock ≠ 0 ∧
    st2 = voteResult tok st caller pid support := by
  unfold vote at h
  split_ifs at h with h1 h2 h3 h4 h5
  split at h
  · exact absurd h (by simp)
  · rename_i weight heq
    unfold getPastVotes at heq
    split_ifs at heq with h6
    simp only [Option.some.injEq] at heq
    split_ifs at h with h7
    simp only [Except.ok.injEq] at h
    subst heq
    refine ⟨h1, by simpa using h2, Nat.not_lt.mp h3, Nat.not_lt.mp h4, by simpa using h5,
      h6, h7, ?_⟩
    rw [← h]
    rfl

theorem vote_not_ok_of_closed {tok : TokenState} {st : DAOState} {caller pid : Nat}
    {support : Bool} {blk : Nat}
    (h : (st.proposals pid).canceled = true ∨ (st.proposals pid).endBlock < blk) :
    ∀ st2, vote tok st caller pid support blk ≠ Except.ok st2 := by
  intro st2 hok
  have hinv := vote_ok_inv hok
  rcases h with hc | he
  · rw [hinv.2.1] at hc
    exact Bool.false_ne_true hc
  · exact absurd hinv.2.2.2.1 (Nat.not_le.mpr he)

theorem executeProposal_ok_inv {tok : TokenState} {st : DAOState} {pid blk : Nat}
    {st2 : DAOState} (h : executeProposal tok st pid blk = Except.ok st2) :
    (st.proposals pid).id ≠ 0 ∧ (st.proposals pid).canceled = false ∧
    (st.proposals pid).executed = false ∧ (st.proposals pid).endBlock < blk ∧
    state tok st pid blk = Except.ok ProposalState.Succeeded ∧
    st2 = { st with proposals := fun i =>
        if i = pid then { st.proposals pid with executed := true }
        else st.proposals i } := by
  unfold executeProposal at h
  split_ifs at h with h1 h2 h3 h4
  split at h
  · exact absurd h (by simp)
  · rename_i s heq
    split_ifs at h with h5
    simp only [Except.ok.injEq] at h
    subst h5
    exact ⟨h1, by simpa using h2, by simpa using h3, Nat.not_le.mp h4, heq, h.symm⟩

theorem cancelProposal_ok_inv {st : DAOState} {caller pid : Nat} {st2 : DAOState}
    (h : cancelProposal st caller pid = Except.ok st2) :
    caller = st.owner ∧ (st.proposals pid).id ≠ 0 ∧
    (st.proposals pid).canceled = false ∧ (st.proposals pid).executed = false ∧
    st2 = { st with proposals := fun i =>
        if i = pid then { st.proposals pid with canceled := true }
        else st.proposals i } := by
  unfold cancelProposal at h
  split_ifs at h with h1 h2 h3 h4
  simp only [Except.ok.injEq] at h
  exact ⟨by simpa using h1, h2, by simpa using h3, by simpa using h4, h.symm⟩

theorem state_error_eq {tok : TokenState} {st : DAOState} {pid blk : Nat} {e : GovError}
    (h : state tok st pid blk = Except.error e) : e = GovError.FutureSequenceQuery := by
  unfold state at h
  split_ifs at h
  split at h
  · exact (by simpa using h : GovError.FutureSequenceQuery = e).symm
  · simp only [Except.ok.injEq] at h
    split_ifs at h

/-- C1: for every proposal record whose snapshot is not past its end bound
(true of every proposal the contract creates), state(id) agrees with the
specified classification: Unknown for the zero-id sentinel, Canceled or
Executed per the flags, Active while the current block is at most the end
bound, and afterwards Succeeded exactly when forVotes reaches
floor(totalSupplyAtSnapshot * quorumNumerator / 100) and strictly exceeds
againstVotes, else Defeated; in particular a tie is Defeated. -/
theorem C1_state_classification (tok : TokenState) (st : DAOState) (pid blk : Nat)
    (h : (st.proposals pid).snapshotBlock ≤ (st.proposals pid).endBlock) :
    state tok st pid blk =
      Except.ok (stateSpec (lookupLE tok.supplyCkpts (st.proposals pid).snapshotBlock)
        st.quorumNumerator (st.proposals pid) blk) ∧
    ((st.proposals pid).forVotes = (st.proposals pid).againstVotes →
      (st.proposals pid).id ≠ 0 → (st.proposals pid).canceled = false →
      (st.proposals pid).executed = false → (st.proposals pid).endBlock < blk →
      state tok st pid blk = Except.ok ProposalState.Defeated) := by
  constructor
  · unfold state stateSpec
    by_cases h1 : (st.proposals pid).id = 0
    · simp [h1]
    by_cases h2 : (st.proposals pid).canceled = true
    · simp [h1, h2]
    by_cases h3 : (st.proposals pid).executed = true
    · simp [h1, h2, h3]
    by_cases h4 : blk ≤ (st.proposals pid).endBlock
    · simp [h1, h2, h3, h4]
    · have h5 : (st.proposals pid).snapshotBlock < blk :=
        lt_of_le_of_lt h (Nat.lt_of_not_le h4)
      simp [h1, h2, h3, h4, getPastTotalSupply, h5]
      split_ifs <;> rfl
  · intro htie hid hc he hend
    unfold state
    have h5 : (st.proposals pid).snapshotBlock < blk := lt_of_le_of_lt h hend
    simp [hid, hc, he, Nat.not_le.mpr hend, getPastTotalSupply, h5, htie]

/-- Witness for C1: the tie proposal of the fixture registry, queried after
its window closed, is Defeated. -/
theorem C1_witness :
    state Fixtures.tokC1 Fixtures.daoTie 1 10 = Except.ok ProposalState.Defeated :=
  (C1_state_classification Fixtures.tokC1 Fixtures.daoTie 1 10 (by decide)).2 (by decide)
    (by decide) (by decide) (by decide) (by decide)

/-- C3: vote fails with exactly the specified error for each guard violation,
in guard order (absent proposal, canceled, window not started, window closed,
receipt already set, zero snapshot weight); a failing vote returns no state
at all (no residual effect); and a successful vote marks the (id, caller)
receipt and adds exactly the queried snapshot weight to the supported tally. -/
theorem C3_vote_errors (tok : TokenState) (st : DAOState) (caller pid : Nat)
    (support : Bool) (blk : Nat) :
    (vote tok st caller pid support blk = Except.error GovError.ProposalNotFound ↔
      (st.proposals pid).id = 0) ∧
    (vote tok st caller pid support blk = Except.error GovError.ProposalCanceled ↔
      (st.proposals pid).id ≠ 0 ∧ (st.proposals pid).canceled = true) ∧
    (vote tok st caller pid support blk = Except.error GovError.VotingNotStarted ↔
      (st.proposals pid).id ≠ 0 ∧ (st.proposals pid).canceled = false ∧
      blk < (st.proposals pid).startBlock) ∧
    (vote tok st caller pid support blk = Except.error GovError.VotingClosed ↔
      (st.proposals pid).id ≠ 0 ∧ (st.proposals pid).canceled = false ∧
      (st.proposals pid).startBlock ≤ blk ∧ (st.proposals pid).endBlock < blk) ∧
    (vote tok st caller pid support blk = Except.error GovError.AlreadyVoted ↔
      (st.proposals pid).id ≠ 0 ∧ (st.proposals pid).canceled = false ∧
      (st.proposals pid).startBlock ≤ blk ∧ blk ≤ (st.proposals pid).endBlock ∧
      st.hasVoted pid caller = true) ∧
    (vote tok st caller pid support blk = Except.error GovError.NoVotingPower ↔
      (st.proposals pid).id ≠ 0 ∧ (st.proposals pid).canceled = false ∧
      (st.proposals pid).startBlock ≤ blk ∧ blk ≤ (st.proposals pid).endBlock ∧
      st.hasVoted pid caller = false ∧
      getPastVotes tok blk caller (st.proposals pid).snapshotBlock = some 0) ∧
    ((st.proposals pid).id ≠ 0 → (st.proposals pid).canceled = false →
      (st.proposals pid).startBlock ≤ blk → blk ≤ (st.proposals pid).endBlock →
      st.hasVoted pid caller = false →
      ∀ w, getPastVotes tok blk caller (st.proposals pid).snapshotBlock = some w → w ≠ 0 →
      vote tok st caller pid support blk =
        Except.ok (voteResult tok st caller pid support)) := by
  unfold vote
  by_cases h1 : (st.proposals pid).id = 0
  · simp [h1]
  by_cases h2 : (st.proposals pid).canceled = true
  · simp [h1, h2]
  by_cases h3 : blk < (st.proposals pid).startBlock
  · simp [h1, h2, h3, Nat.not_le.mpr h3]
  by_cases h4 : (st.proposals pid).endBlock < blk
  · simp [h1, h2, h3, h4, Nat.not_lt.mp h3, Nat.not_le.mpr h4]
  by_cases h5 : st.hasVoted pid caller = true
  · simp [h1, h2, h3, h4, h5, Nat.not_lt.mp h3, Nat.not_lt.mp h4]
  by_cases h6 : (st.proposals pid).snapshotBlock < blk
  · by_cases h7 : lookupLE (tok.ckpts caller) (st.proposals pid).snapshotBlock = 0
    · simp [getPastVotes, h1, h2, h3, h4, h5, h6, h7, Nat.not_lt.mp h3, Nat.not_lt.mp h4]
    · simp [getPastVotes, h1, h2, h3, h4, h5, h6, h7, Nat.not_lt.mp h3, Nat.not_lt.mp h4,
        voteResult]
  · simp [getPastVotes, h1, h2, h3, h4, h5, h6, Nat.not_lt.mp h3, Nat.not_lt.mp h4]

/-- Witness for C3: on a live proposal, a caller with no checkpointed weight
at the snapshot is rejected with NoVotingPower. -/
theorem C3_witness :
    vote Fixtures.tokC1 Fixtures.daoFresh 2 1 true 5 =
      Except.error GovError.NoVotingPower :=
  (C3_vote_errors Fixtures.tokC1 Fixtures.daoFresh 2 1 true 5).2.2.2.2.2.1.mpr (by decide)

/-- The state executeProposal leaves behind on success: only the executed
flag of the target proposal is set. -/
def execResult (st : DAOState) (pid : Nat) : DAOState :=
  { st with proposals := fun i =>
      if i = pid then { st.proposals pid with executed := true }
      else st.proposals i }

/-- C9: executeProposal fails with exactly the specified error for each guard
violation (absent proposal, canceled, already executed, window still open,
computed state not Succeeded), succeeds exactly when none of these conditions
hold, and on success its only effect is setting the executed flag. -/
theorem C9_execute_errors (tok : TokenState) (st : DAOState) (pid blk : Nat) :
    (executeProposal tok st pid blk = Except.error GovError.ProposalNotFound ↔
      (st.proposals pid).id = 0) ∧
    (executeProposal tok st pid blk = Except.error GovError.ProposalCanceled ↔
      (st.proposals pid).id ≠ 0 ∧ (st.proposals pid).canceled = true) ∧
    (executeProposal tok st pid blk = Except.error GovError.AlreadyExecuted ↔
      (st.proposals pid).id ≠ 0 ∧ (st.proposals pid).canceled = false ∧
      (st.proposals pid).executed = true) ∧
    (executeProposal tok st pid blk = Except.error GovError.VotingNotEnded ↔
      (st.proposals pid).id ≠ 0 ∧ (st.proposals pid).canceled = false ∧
      (st.proposals pid).executed = false ∧ blk ≤ (st.proposals pid).endBlock) ∧
    (executeProposal tok st pid blk = Except.error GovError.ProposalNotSuccessful ↔
      (st.proposals pid).id ≠ 0 ∧ (st.proposals pid).canceled = false ∧
      (st.proposals pid).executed = false ∧ (st.proposals pid).endBlock < blk ∧
      state tok st pid blk = Except.ok ProposalState.Defeated) ∧
    (executeProposal tok st pid blk = Except.ok (execResult st pid) ↔
      (st.proposals pid).id ≠ 0 ∧ (st.proposals pid).canceled = false ∧
      (st.proposals pid).executed = false ∧ (st.proposals pid).endBlock < blk ∧
      state tok st pid blk = Except.ok ProposalState.Succeeded) ∧
    (∀ st2, executeProposal tok st pid blk = Except.ok st2 → st2 = execResult st pid) := by
  have hlast : ∀ st2, executeProposal tok st pid blk = Except.ok st2 →
      st2 = execResult st pid := by
    intro st2 hok
    exact (executeProposal_ok_inv hok).2.2.2.2.2
  unfold executeProposal
  by_cases h1 : (st.proposals pid).id = 0
  · simpa [h1] using hlast
  by_cases h2 : (st.proposals pid).canceled = true
  · simpa [h1, h2] using hlast
  by_cases h3 : (st.proposals pid).executed = true
  · simpa [h1, h2, h3] using hlast
  by_cases h4 : blk ≤ (st.proposals pid).endBlock
  · simpa [h1, h2, h3, h4] using hlast
  by_cases h5 : (st.proposals pid).snapshotBlock < blk
  · by_cases h6 : lookupLE tok.supplyCkpts (st.proposals pid).snapshotBlock *
        st.quorumNumerator / 100 ≤ (st.proposals pid).forVotes ∧
        (st.proposals pid).againstVotes < (st.proposals pid).forVotes
    · simpa [state, getPastTotalSupply, h1, h2, h3, h4, h5, h6, Nat.not_le.mp h4,
        execResult] using hlast
    · simpa [state, getPastTotalSupply, h1, h2, h3, h4, h5, h6, Nat.not_le.mp h4]
        using hlast
  · simpa [state, getPastTotalSupply, h1, h2, h3, h4, h5, Nat.not_le.mp h4] using hlast

/-- Witness for C9: executing the winning fixture proposal after its window
closed succeeds and only sets the executed flag. -/
theorem C9_witness :
    executeProposal Fixtures.tokC1 Fixtures.daoWin 1 10 =
      Except.ok (execResult Fixtures.daoWin 1) :=
  (C9_execute_errors Fixtures.tokC1 Fixtures.daoWin 1 10).2.2.2.2.2.1.mpr
    ⟨by decide, by decide, by decide, by decide, by rfl⟩

/-- C6: holding the proposal record, tallies and checkpointed supply fixed, a
proposal computed Defeated under one quorum numerator is still computed
Defeated under any larger numerator. -/
theorem C6_quorum_monotonicity (tok : TokenState) (st : DAOState) (pid blk q2 : Nat)
    (hq : st.quorumNumerator ≤ q2)
    (hd : state tok st pid blk = Except.ok ProposalState.Defeated) :
    state tok { st with quorumNumerator := q2 } pid blk =
      Except.ok ProposalState.Defeated := by
  unfold state at hd ⊢
  by_cases h1 : (st.proposals pid).id = 0
  · simp [h1] at hd
  by_cases h2 : (st.proposals pid).canceled = true
  · simp [h1, h2] at hd
  by_cases h3 : (st.proposals pid).executed = true
  · simp [h1, h2, h3] at hd
  by_cases h4 : blk ≤ (st.proposals pid).endBlock
  · simp [h1, h2, h3, h4] at hd
  by_cases h5 : (st.proposals pid).snapshotBlock < blk
  · simp only [h1, h2, h3, h4, getPastTotalSupply, h5, if_true, if_false, if_neg, if_pos,
      ite_false, ite_true] at hd ⊢
    simp [getPastTotalSupply, h5] at hd ⊢
    have hreq : lookupLE tok.supplyCkpts (st.proposals pid).snapshotBlock *
        st.quorumNumerator / 100 ≤
        lookupLE tok.supplyCkpts (st.proposals pid).snapshotBlock * q2 / 100 :=
      Nat.div_le_div_right (Nat.mul_le_mul_left _ hq)
    generalize hr1 : lookupLE tok.supplyCkpts (st.proposals pid).snapshotBlock *
        st.quorumNumerator / 100 = r1 at hd hreq
    generalize hr2 : lookupLE tok.supplyCkpts (st.proposals pid).snapshotBlock *
        q2 / 100 = r2 at hreq ⊢
    omega
  · simp [h1, h2, h3, h4, getPastTotalSupply, h5] at hd

/-- Witness for C6: the defeated tie fixture stays Defeated when the quorum
numerator is raised from 20 to 30. -/
theorem C6_witness :
    state Fixtures.tokC1 { Fixtures.daoTie with quorumNumerator := 30 } 1 10 =
      Except.ok ProposalState.Defeated :=
  C6_quorum_monotonicity Fixtures.tokC1 Fixtures.daoTie 1 10 30 (by decide) (by rfl)

/-- C7: a successful setQuorumNumerator changes the quorum used by every
subsequent state computation, including for proposals created before the
change (quorum is read live); a successful setVotingPeriodBlocks leaves every
already-created proposal, and every state computation over it, unchanged (the
period is frozen into end at creation); neither setter modifies any stored
proposal field. -/
theorem C7_parameter_asymmetry (st : DAOState) (caller q2 v2 : Nat)
    (hauth : caller = st.owner) (hq1 : 0 < q2) (hq2 : q2 ≤ 100) (hv : 0 < v2) :
    setQuorumNumerator st caller q2 = Except.ok { st with quorumNumerator := q2 } ∧
    setVotingPeriodBlocks st caller v2 = Except.ok { st with votingPeriodBlocks := v2 } ∧
    ({ st with quorumNumerator := q2 } : DAOState).proposals = st.proposals ∧
    ({ st with votingPeriodBlocks := v2 } : DAOState).proposals = st.proposals ∧
    (∀ tok pid blk,
      state tok { st with votingPeriodBlocks := v2 } pid blk = state tok st pid blk) ∧
    (∀ tok pid blk,
      (st.proposals pid).id ≠ 0 → (st.proposals pid).canceled = false →
      (st.proposals pid).executed = false → (st.proposals pid).endBlock < blk →
      (st.proposals pid).snapshotBlock < blk →
      (state tok { st with quorumNumerator := q2 } pid blk =
          Except.ok ProposalState.Succeeded ↔
        lookupLE tok.supplyCkpts (st.proposals pid).snapshotBlock * q2 / 100 ≤
          (st.proposals pid).forVotes ∧
        (st.proposals pid).againstVotes < (st.proposals pid).forVotes)) := by
  refine ⟨?_, ?_, rfl, rfl, fun tok pid blk => rfl, ?_⟩
  · unfold setQuorumNumerator
    simp [hauth, hq1, hq2]
  · unfold setVotingPeriodBlocks
    simp [hauth, hv]
  · intro tok pid blk hid hc he hend hsnap
    by_cases h6 : lookupLE tok.supplyCkpts (st.proposals pid).snapshotBlock * q2 / 100 ≤
        (st.proposals pid).forVotes ∧
        (st.proposals pid).againstVotes < (st.proposals pid).forVotes
    · simp [state, hid, hc, he, Nat.not_le.mpr hend, getPastTotalSupply, hsnap, h6]
    · simp [state, hid, hc, he, Nat.not_le.mpr hend, getPastTotalSupply, hsnap, h6]

/-- Witness for C7: raising the quorum numerator of the fixture registry to
30 succeeds and stores exactly the new numerator. -/
theorem C7_witness :
    setQuorumNumerator Fixtures.daoTie 0 30 =
      Except.ok { Fixtures.daoTie with quorumNumerator := 30 } :=
  (C7_parameter_asymmetry Fixtures.daoTie 0 30 7 rfl (by decide) (by decide) (by decide)).1

/-- C8: createProposal returns the current value of the id counter (which the
constructor starts at 1, with 0 the does-not-exist sentinel), increments the
counter, and stores a proposal with snapshot = start = the current block,
end = start + the current voting period, zero tallies and clear flags,
leaving every other slot and the vote receipts unchanged. -/
theorem C8_createProposal (st : DAOState) (caller : Nat) (description : String)
    (blk : Nat) :
    (createProposal st caller description blk).2 = st.nextProposalId ∧
    ((createProposal st caller description blk).1).nextProposalId =
      st.nextProposalId + 1 ∧
    ((createProposal st caller description blk).1).proposals st.nextProposalId =
      { id := st.nextProposalId, proposer := caller, description := description,
        snapshotBlock := blk, startBlock := blk, endBlock := blk + st.votingPeriodBlocks,
        forVotes := 0, againstVotes := 0, canceled := false, executed := false } ∧
    (∀ i, i ≠ st.nextProposalId →
      ((createProposal st caller description blk).1).proposals i = st.proposals i) ∧
    ((createProposal st caller description blk).1).hasVoted = st.hasVoted ∧
    (∀ owner quorum period, (initDAO owner quorum period).nextProposalId = 1 ∧
      ∀ i, (initDAO owner quorum period).proposals i = emptyProposal) :=
  ⟨rfl, rfl, by simp [createProposal],
    fun i hi => by simp [createProposal, hi], rfl,
    fun _ _ _ => ⟨rfl, fun _ => rfl⟩⟩

/-- Witness for C8: creating a proposal in the fixture registry leaves an
unrelated slot unchanged. -/
theorem C8_witness :
    ((createProposal Fixtures.daoTie 7 "d" 9).1).proposals 5 =
      Fixtures.daoTie.proposals 5 :=
  (C8_createProposal Fixtures.daoTie 7 "d" 9).2.2.2.1 5 (by decide)

/-- C10: a vote cast at the start block of a proposal (which equals its
snapshot) passes every window guard but is rejected by the strict
future-lookup bound of the snapshot weight query; consequently a vote can
only succeed at blocks strictly greater than the start block. -/
theorem C10_vote_at_snapshot_boundary (tok : TokenState) (st : DAOState)
    (caller pid : Nat) (support : Bool) :
    ((st.proposals pid).snapshotBlock = (st.proposals pid).startBlock →
      (st.proposals pid).id ≠ 0 → (st.proposals pid).canceled = false →
      (st.proposals pid).startBlock ≤ (st.proposals pid).endBlock →
      st.hasVoted pid caller = false →
      vote tok st caller pid support (st.proposals pid).startBlock =
        Except.error GovError.FutureSequenceQuery) ∧
    (∀ blk st2, (st.proposals pid).snapshotBlock = (st.proposals pid).startBlock →
      vote tok st caller pid support blk = Except.ok st2 →
      (st.proposals pid).startBlock < blk) := by
  constructor
  · intro hsnap hid hc hwin hv
    unfold vote
    simp [hid, hc, hv, Nat.not_lt.mpr hwin, getPastVotes, hsnap]
  · intro blk st2 hsnap hok
    have hi := vote_ok_inv hok
    rw [← hsnap]
    exact hi.2.2.2.2.2.1

/-- Witness for C10: voting on the fresh fixture proposal exactly at its
start block 3 is rejected as a future lookup. -/
theorem C10_witness :
    vote Fixtures.tokC1 Fixtures.daoFresh 2 1 true 3 =
      Except.error GovError.FutureSequenceQuery :=
  (C10_vote_at_snapshot_boundary Fixtures.tokC1 Fixtures.daoFresh 2 1 true).1 (by decide)
    (by decide) (by decide) (by decide) (by decide)

theorem state_ok_terminal_inv {tok : TokenState} {st : DAOState} {pid blk : Nat}
    (h : state tok st pid blk = Except.ok ProposalState.Canceled ∨
         state tok st pid blk = Except.ok ProposalState.Executed) :
    (st.proposals pid).canceled = true ∨ (st.proposals pid).executed = true := by
  rcases h with h | h
  · unfold state at h
    split_ifs at h with h1 h2 h3 h4
    · exact absurd h (by simp)
    · exact Or.inl h2
    · exact absurd h (by simp)
    · exact absurd h (by simp)
    · exfalso
      split at h
      · exact absurd h (by simp)
      · simp only [Except.ok.injEq] at h
        split_ifs at h <;> exact absurd h (by simp)
  · unfold state at h
    split_ifs at h with h1 h2 h3 h4
    · exact absurd h (by simp)
    · exact absurd h (by simp)
    · exact Or.inr h3
    · exact absurd h (by simp)
    · exfalso
      split at h
      · exact absurd h (by simp)
      · simp only [Except.ok.injEq] at h
        split_ifs at h <;> exact absurd h (by simp)

/-- Counterexample for C5: cancelProposal succeeds on the closed-window tie
proposal although its computed state immediately before is Defeated, not
Active; and executeProposal succeeds on the winning proposal although its
computed state immediately before is Succeeded, not Active. -/
theorem C5_counterexample :
    (∃ st2, cancelProposal Fixtures.daoTie 0 1 = Except.ok st2) ∧
    state Fixtures.tokC1 Fixtures.daoTie 1 10 ≠ Except.ok ProposalState.Active ∧
    (∃ st2, executeProposal Fixtures.tokC1 Fixtures.daoWin 1 10 = Except.ok st2) ∧
    state Fixtures.tokC1 Fixtures.daoWin 1 10 ≠ Except.ok ProposalState.Active := by
  have h1 : state Fixtures.tokC1 Fixtures.daoTie 1 10 =
      Except.ok ProposalState.Defeated := rfl
  have h2 : state Fixtures.tokC1 Fixtures.daoWin 1 10 =
      Except.ok ProposalState.Succeeded := rfl
  refine ⟨⟨_, rfl⟩, ?_, ⟨_, rfl⟩, ?_⟩
  · rw [h1]
    simp
  · rw [h2]
    simp

/-- C5 amended: Canceled is reachable from any existing, non-canceled,
non-executed proposal regardless of its computed state (cancelProposal checks
no window and no outcome, so it also succeeds from Succeeded and Defeated);
Executed is reachable only when the computed state is Succeeded (never from
Active, since execution requires the window to be closed); and neither is
reachable from a proposal already Canceled or Executed. -/
theorem C5_amended_reachability (tok : TokenState) (st : DAOState)
    (pid blk caller : Nat) :
    ((∃ st2, cancelProposal st caller pid = Except.ok st2) ↔
      caller = st.owner ∧ (st.proposals pid).id ≠ 0 ∧
      (st.proposals pid).canceled = false ∧ (st.proposals pid).executed = false) ∧
    (∀ st2, executeProposal tok st pid blk = Except.ok st2 →
      state tok st pid blk = Except.ok ProposalState.Succeeded) ∧
    ((state tok st pid blk = Except.ok ProposalState.Canceled ∨
      state tok st pid blk = Except.ok ProposalState.Executed) →
      (∀ st2, cancelProposal st caller pid ≠ Except.ok st2) ∧
      (∀ st2, executeProposal tok st pid blk ≠ Except.ok st2)) ∧
    (caller = st.owner → (st.proposals pid).id ≠ 0 →
      (st.proposals pid).canceled = false → (st.proposals pid).executed = false →
      (st.proposals pid).snapshotBlock < blk →
      (state tok st pid blk = Except.ok ProposalState.Active ∨
       state tok st pid blk = Except.ok ProposalState.Succeeded ∨
       state tok st pid blk = Except.ok ProposalState.Defeated)) := by
  refine ⟨⟨?_, ?_⟩, ?_, ?_, ?_⟩
  · rintro ⟨st2, hok⟩
    have hi := cancelProposal_ok_inv hok
    exact ⟨hi.1, hi.2.1, hi.2.2.1, hi.2.2.2.1⟩
  · rintro ⟨hauth, hid, hc, he⟩
    refine ⟨{ st with proposals := fun i => if i = pid then { st.proposals pid with canceled := true } else st.proposals i }, ?_⟩
    unfold cancelProposal
    simp [hauth, hid, hc, he]
  · intro st2 hok
    exact (executeProposal_ok_inv hok).2.2.2.2.1
  · intro hterm
    have hflag := state_ok_terminal_inv hterm
    constructor
    · intro st2 hok
      have hi := cancelProposal_ok_inv hok
      rcases hflag with hf | hf
      · rw [hi.2.2.1] at hf
        exact Bool.false_ne_true hf
      · rw [hi.2.2.2.1] at hf
        exact Bool.false_ne_true hf
    · intro st2 hok
      have hi := executeProposal_ok_inv hok
      rcases hflag with hf | hf
      · rw [hi.2.1] at hf
        exact Bool.false_ne_true hf
      · rw [hi.2.2.1] at hf
        exact Bool.false_ne_true hf
  · intro hauth hid hc he hsnap
    by_cases h4 : blk ≤ (st.proposals pid).endBlock
    · simp [state, hid, hc, he, h4]
    · by_cases h6 : lookupLE tok.supplyCkpts (st.proposals pid).snapshotBlock *
          st.quorumNumerator / 100 ≤ (st.proposals pid).forVotes ∧
          (st.proposals pid).againstVotes < (st.proposals pid).forVotes
      · simp [state, hid, hc, he, h4, getPastTotalSupply, hsnap, h6]
      · simp [state, hid, hc, he, h4, getPastTotalSupply, hsnap, h6]

/-- Witness for the amended C5: executing the winning fixture proposal
succeeds, and its computed state immediately before is Succeeded. -/
theorem C5_witness :
    state Fixtures.tokC1 Fixtures.daoWin 1 10 = Except.ok ProposalState.Succeeded :=
  (C5_amended_reachability Fixtures.tokC1 Fixtures.daoWin 1 10 0).2.1
    (execResult Fixtures.daoWin 1) (by rfl)

theorem voteResult_fields (tok : TokenState) (st : DAOState) (c pid : Nat) (s : Bool)
    (i : Nat) :
    ((voteResult tok st c pid s).proposals i).id = (st.proposals i).id ∧
    ((voteResult tok st c pid s).proposals i).canceled = (st.proposals i).canceled ∧
    ((voteResult tok st c pid s).proposals i).executed = (st.proposals i).executed ∧
    ((voteResult tok st c pid s).proposals i).endBlock = (st.proposals i).endBlock := by
  unfold voteResult
  by_cases hi : i = pid
  · subst hi
    simp only [if_pos rfl]
    unfold tallyUpdate
    split_ifs <;> exact ⟨rfl, rfl, rfl, rfl⟩
  · simp [hi]

theorem applyEvent_preserves (st : DAOState) (blk : Nat) (e : GovEvent)
    (hinv : Inv st blk) :
    Inv (applyEvent st e blk) blk ∧
    (∀ pid, (st.proposals pid).canceled = true →
      ((applyEvent st e blk).proposals pid).canceled = true) ∧
    (∀ pid, (st.proposals pid).executed = true →
      ((applyEvent st e blk).proposals pid).executed = true) := by
  obtain ⟨hinv1, hinv2⟩ := hinv
  have hlow : ∀ pid, (st.proposals pid).canceled = true ∨
      (st.proposals pid).executed = true → pid < st.nextProposalId := by
    intro pid hp
    by_contra hge
    have hemp := hinv2 pid (Nat.le_of_not_lt hge)
    rw [hemp] at hp
    simp [emptyProposal] at hp
  have hid0 : ∀ pid, (st.proposals pid).id ≠ 0 → pid < st.nextProposalId := by
    intro pid hp
    by_contra hge
    have hemp := hinv2 pid (Nat.le_of_not_lt hge)
    rw [hemp] at hp
    simp [emptyProposal] at hp
  cases e with
  | create c d =>
    refine ⟨⟨?_, ?_⟩, ?_, ?_⟩
    · intro i hexec
      simp only [applyEvent, createProposal] at hexec ⊢
      by_cases hi : i = st.nextProposalId
      · subst hi
        simp at hexec
      · simp [hi] at hexec ⊢
        exact hinv1 i hexec
    · intro i hge
      simp only [applyEvent, createProposal] at hge ⊢
      have hne : i ≠ st.nextProposalId := by omega
      have hge2 : st.nextProposalId ≤ i := by omega
      simp [hne]
      exact hinv2 i hge2
    · intro i hc2
      have hlt := hlow i (Or.inl hc2)
      have hne : i ≠ st.nextProposalId := by omega
      simpa [applyEvent, createProposal, hne] using hc2
    · intro i he2
      have hlt := hlow i (Or.inr he2)
      have hne : i ≠ st.nextProposalId := by omega
      simpa [applyEvent, createProposal, hne] using he2
  | castVote tok c pid s =>
    simp only [applyEvent]
    cases hv : vote tok st c pid s blk with
    | error e2 => exact ⟨⟨hinv1, hinv2⟩, fun _ h => h, fun _ h => h⟩
    | ok st2 =>
      have hvi := vote_ok_inv hv
      have hid := hvi.1
      have hst2 : st2 = voteResult tok st c pid s := hvi.2.2.2.2.2.2.2
      subst hst2
      refine ⟨⟨?_, ?_⟩, ?_, ?_⟩
      · intro i hexec
        rw [(voteResult_fields tok st c pid s i).2.2.1] at hexec
        rw [(voteResult_fields tok st c pid s i).2.2.2]
        exact hinv1 i hexec
      · intro i hge
        have hge2 : st.nextProposalId ≤ i := hge
        have hlt := hid0 pid hid
        have hne : i ≠ pid := by omega
        have : (voteResult tok st c pid s).proposals i = st.proposals i := by
          unfold voteResult
          simp [hne]
        rw [this]
        exact hinv2 i hge2
      · intro i hc2
        rw [(voteResult_fields tok st c pid s i).2.1]
        exact hc2
      · intro i he2
        rw [(voteResult_fields tok st c pid s i).2.2.1]
        exact he2
  | execute tok pid =>
    simp only [applyEvent]
    cases hv : executeProposal tok st pid blk with
    | error e2 => exact ⟨⟨hinv1, hinv2⟩, fun _ h => h, fun _ h => h⟩
    | ok st2 =>
      have hei := executeProposal_ok_inv hv
      have hid := hei.1
      have hend := hei.2.2.2.1
      have hst2 : st2 = execResult st pid := hei.2.2.2.2.2
      subst hst2
      refine ⟨⟨?_, ?_⟩, ?_, ?_⟩
      · intro i hexec
        unfold execResult at hexec ⊢
        by_cases hi : i = pid
        · subst hi
          simpa using hend
        · simp [hi] at hexec ⊢
          exact hinv1 i hexec
      · intro i hge
        have hge2 : st.nextProposalId ≤ i := hge
        have hlt := hid0 pid hid
        have hne : i ≠ pid := by omega
        unfold execResult
        simp [hne]
        exact hinv2 i hge2
      · intro i hc2
        unfold execResult
        by_cases hi : i = pid
        · subst hi
          simpa using hc2
        · simpa [hi] using hc2
      · intro i he2
        unfold execResult
        by_cases hi : i = pid
        · subst hi
          simp
        · simpa [hi] using he2
  | cancel c pid =>
    simp only [applyEvent]
    cases hv : cancelProposal st c pid with
    | error e2 => exact ⟨⟨hinv1, hinv2⟩, fun _ h => h, fun _ h => h⟩
    | ok st2 =>
      have hci := cancelProposal_ok_inv hv
      have hid := hci.2.1
      have hst2 := hci.2.2.2.2
      subst hst2
      refine ⟨⟨?_, ?_⟩, ?_, ?_⟩
      · intro i hexec
        by_cases hi : i = pid
        · subst hi
          simp at hexec ⊢
          exact hinv1 i hexec
        · simp [hi] at hexec ⊢
          exact hinv1 i hexec
      · intro i hge
        have hge2 : st.nextProposalId ≤ i := hge
        have hlt := hid0 pid hid
        have hne : i ≠ pid := by omega
        simp [hne]
        exact hinv2 i hge2
      · intro i hc2
        by_cases hi : i = pid
        · subst hi
          simp
        · simpa [hi] using hc2
      · intro i he2
        by_cases hi : i = pid
        · subst hi
          simpa using he2
        · simpa [hi] using he2
  | setQuorum c q =>
    simp only [applyEvent]
    cases hv : setQuorumNumerator st c q with
    | error e2 => exact ⟨⟨hinv1, hinv2⟩, fun _ h => h, fun _ h => h⟩
    | ok st2 =>
      unfold setQuorumNumerator at hv
      split_ifs at hv
      simp only [Except.ok.injEq] at hv
      subst hv
      exact ⟨⟨hinv1, hinv2⟩, fun _ h => h, fun _ h => h⟩
  | setPeriod c v =>
    simp only [applyEvent]
    cases hv : setVotingPeriodBlocks st c v with
    | error e2 => exact ⟨⟨hinv1, hinv2⟩, fun _ h => h, fun _ h => h⟩
    | ok st2 =>
      unfold setVotingPeriodBlocks at hv
      split_ifs at hv
      simp only [Except.ok.injEq] at hv
      subst hv
      exact ⟨⟨hinv1, hinv2⟩, fun _ h => h, fun _ h => h⟩

theorem steps_transport {st : DAOState} {blk : Nat} {st2 : DAOState} {blk2 : Nat}
    (hs : Steps st blk st2 blk2) (hinv : Inv st blk) :
    Inv st2 blk2 ∧
    (∀ pid, (st.proposals pid).canceled = true → (st2.proposals pid).canceled = true) ∧
    (∀ pid, (st.proposals pid).executed = true → (st2.proposals pid).executed = true) := by
  induction hs with
  | refl => exact ⟨hinv, fun _ h => h, fun _ h => h⟩
  | tick hs0 hle ih =>
    obtain ⟨⟨i1, i2⟩, m1, m2⟩ := ih
    exact ⟨⟨fun pid h => lt_of_lt_of_le (i1 pid h) hle, i2⟩, m1, m2⟩
  | step e hs0 ih =>
    obtain ⟨ihInv, m1, m2⟩ := ih
    obtain ⟨hInv2, n1, n2⟩ := applyEvent_preserves _ _ e ihInv
    exact ⟨hInv2, fun pid h => n1 pid (m1 pid h), fun pid h => n2 pid (m2 pid h)⟩

/-- C4: from any invariant-respecting registry state (executed proposals have
closed windows; unassigned slots are empty), along any execution whose clock
never decreases, once the canceled or executed flag of a proposal is set, every
subsequent vote, executeProposal and cancelProposal call on it fails: a
canceled proposal is rejected by the canceled guard, and an executed one by
the executed guard (execute, cancel) or, for vote, by the closed voting
window, since executed can only ever be set after the window closed and the
clock is monotone. -/
theorem C4_terminal_absorption (st : DAOState) (blk : Nat) (st2 : DAOState) (blk2 : Nat)
    (hinv : Inv st blk) (hsteps : Steps st blk st2 blk2) (pid : Nat)
    (hterm : (st.proposals pid).canceled = true ∨ (st.proposals pid).executed = true) :
    (∀ tok caller support st3, vote tok st2 caller pid support blk2 ≠ Except.ok st3) ∧
    (∀ tok st3, executeProposal tok st2 pid blk2 ≠ Except.ok st3) ∧
    (∀ caller st3, cancelProposal st2 caller pid ≠ Except.ok st3) := by
  obtain ⟨hInv2, m1, m2⟩ := steps_transport hsteps hinv
  have hterm2 : (st2.proposals pid).canceled = true ∨
      (st2.proposals pid).executed = true := by
    rcases hterm with h | h
    · exact Or.inl (m1 pid h)
    · exact Or.inr (m2 pid h)
  refine ⟨?_, ?_, ?_⟩
  · intro tok caller support st3 hok
    rcases hterm2 with h | h
    · exact vote_not_ok_of_closed (Or.inl h) st3 hok
    · exact vote_not_ok_of_closed (Or.inr (hInv2.1 pid h)) st3 hok
  · intro tok st3 hok
    have hi := executeProposal_ok_inv hok
    rcases hterm2 with h | h
    · rw [hi.2.1] at h
      exact Bool.false_ne_true h
    · rw [hi.2.2.1] at h
      exact Bool.false_ne_true h
  · intro caller st3 hok
    have hi := cancelProposal_ok_inv hok
    rcases hterm2 with h | h
    · rw [hi.2.2.1] at h
      exact Bool.false_ne_true h
    · rw [hi.2.2.2.1] at h
      exact Bool.false_ne_true h

/-- Witness for C4: in the fixture registry holding a canceled proposal, the
invariant holds at block 2, and vote, executeProposal and cancelProposal on
that proposal all fail. -/
theorem C4_witness :
    (∀ st3, vote Fixtures.tokC1 Fixtures.daoTerm 3 1 true 2 ≠ Except.ok st3) ∧
    (∀ st3, executeProposal Fixtures.tokC1 Fixtures.daoTerm 1 2 ≠ Except.ok st3) ∧
    (∀ st3, cancelProposal Fixtures.daoTerm 0 1 ≠ Except.ok st3) := by
  have hinv : Inv Fixtures.daoTerm 2 := by
    constructor
    · intro pid h
      by_cases hp : pid = 1 <;>
        simp [Fixtures.daoTerm, Fixtures.pCanc, emptyProposal, hp] at h
    · intro pid h
      have h2 : 2 ≤ pid := h
      have hne : pid ≠ 1 := by omega
      simp [Fixtures.daoTerm, hne]
  have h := C4_terminal_absorption Fixtures.daoTerm 2 Fixtures.daoTerm 2 hinv
    (Steps.refl Fixtures.daoTerm 2) 1 (Or.inl (by decide))
  exact ⟨fun st3 => h.1 Fixtures.tokC1 3 true st3, fun st3 => h.2.1 Fixtures.tokC1 st3,
    fun st3 => h.2.2 0 st3⟩

end DAOVoting
